import Mathlib

/-!
# viper2json: format detection and the stdin-to-JSON pipeline

A shallow embedding of `main.go`.  The program is written against two external
packages, `github.com/spf13/viper` and `encoding/json`; neither is part of the
repository, so the operations the program calls on them are the fields of the
structure `Library`, and every definition translated from `main.go` takes a
`Library` as its first argument.  A `*viper.Viper` value is mutated in place by
`SetConfigType` and `ReadConfig`; here the instance is passed explicitly and
each call returns the instance as it is after the call.

Claims that hold whatever the packages do are proved for every `Library`.
Claims that rest on what the packages do are proved for `viperOf`, the viper
instance over arbitrary decoders.
-/

namespace Viper2Json

/-- A Go `[]byte` value.  The `nil` slice and the empty slice are both `[]`:
`bytes.Equal` does not tell them apart. -/
abbrev Bytes := List UInt8

/-- The operations of the external packages that `main.go` calls. -/
structure Library where
  /-- state of one `*viper.Viper` instance -/
  Viper : Type
  /-- the `map[string]interface{}` returned by `AllSettings` -/
  Settings : Type
  /-- the call `viper.New()`: a newly constructed instance -/
  New : Viper
  /-- the call `v.SetConfigType(t)`: the instance afterwards -/
  SetConfigType : Viper → String → Viper
  /-- the call `v.ReadConfig(bytes.NewReader(b))`: the instance afterwards, and
  whether the returned `error` is non-nil -/
  ReadConfig : Viper → Bytes → Viper × Bool
  /-- the call `v.AllSettings()` -/
  AllSettings : Viper → Settings
  /-- the call `json.Marshal(m)`: `some js` for `(js, nil)`, `none` for
  `(nil, err)` with `err` non-nil -/
  Marshal : Settings → Option Bytes

/-- The Go variable `viperTypes`: supported config file types, in trial order. -/
def viperTypes : List String :=
  ["json", "yaml", "hcl", "toml", "properties"]

/-- The local `emptyViperConfig := []byte("{}")` of `GetConfigType`. -/
def emptyViperConfig : Bytes := [123, 125]

/-- The binding `json, _ := json.Marshal(m)`: the error is dropped and only the
byte slice is kept, which is `nil` when marshaling failed. -/
def marshalDiscardErr (lib : Library) (m : lib.Settings) : Bytes :=
  match lib.Marshal m with
  | some js => js
  | none => []

/-- One pass of the body of the `for` loop of `GetConfigType` up to the
comparison: `SetConfigType(j)`, then `ReadConfig` with its error dropped.  The
result is `testConfig` as the pass leaves it. -/
def trialStep (lib : Library) (b : Bytes) (testConfig : lib.Viper) (j : String) : lib.Viper :=
  (lib.ReadConfig (lib.SetConfigType testConfig j) b).1

/-- The `for _, j := range viperTypes` loop of `GetConfigType`, over the
formats still to be tried, with `testConfig` as the earlier passes left it.
Falling out of the loop returns `""`. -/
def detectLoop (lib : Library) (b : Bytes) : lib.Viper → List String → String
  | _, [] => ""
  | testConfig, j :: rest =>
    let testConfig := trialStep lib b testConfig j
    let json := marshalDiscardErr lib (lib.AllSettings testConfig)
    if json ≠ emptyViperConfig then j
    else detectLoop lib b testConfig rest

/-- The Go function `GetConfigType`: one instance is constructed before the
loop and every trial is run on it. -/
def GetConfigType (lib : Library) (b : Bytes) : String :=
  detectLoop lib b lib.New viperTypes

/-- The Go function `GetViperConfigFromBytes`: the instance it returns. -/
def GetViperConfigFromBytes (lib : Library) (b : Bytes) : lib.Viper :=
  let language := GetConfigType lib b
  let conf := lib.New
  let conf := lib.SetConfigType conf language
  (lib.ReadConfig conf b).1

/-- How a run of the process ends: a `panic` with its message and nothing
written to standard output, or a normal return from `main` with the bytes
written to standard output. -/
inductive Outcome where
  | panicked (msg : String)
  | returned (stdout : Bytes)
  deriving DecidableEq

/-- The Go function `main`.  `stdin` is the result of `ioutil.ReadAll(os.Stdin)`:
the bytes read and whether the error is non-nil.  `data` is the content of the
buffer built from those bytes, that is, the bytes themselves; `Printf` with
`"%s\n"` writes the marshaled bytes and a newline (byte 10). -/
def main (lib : Library) (stdin : Bytes × Bool) : Outcome :=
  if stdin.2 then Outcome.panicked "ioutil: could not read stdin"
  else
    let data := stdin.1
    let config := GetViperConfigFromBytes lib data
    match lib.Marshal (lib.AllSettings config) with
    | none => Outcome.panicked "json: error marshaling JSON"
    | some bytes => Outcome.returned (bytes ++ [10])

/-! ## The trials of the detector, one by one -/

/-- The instance `testConfig` after the loop body has run, without returning,
for each format of `fs` in order, starting from `v`. -/
def afterTrials (lib : Library) (b : Bytes) (v : lib.Viper) (fs : List String) : lib.Viper :=
  fs.foldl (trialStep lib b) v

/-- The bytes that the pass for the `i`-th format of `fs` compares with `{}`,
when the passes start from the instance `v` and none before it returns. -/
def jsonFrom (lib : Library) (b : Bytes) (v : lib.Viper) (fs : List String) (i : Nat) : Bytes :=
  marshalDiscardErr lib
    (lib.AllSettings (trialStep lib b (afterTrials lib b v (fs.take i)) (fs.getD i "")))

/-- The instance on which `GetConfigType` runs its trial number `k` (counted
from 0): what the trials before it left of the one instance built before the
loop. -/
def trialInput (lib : Library) (b : Bytes) (k : Nat) : lib.Viper :=
  afterTrials lib b lib.New (viperTypes.take k)

/-- The format tried by trial number `k`. -/
def trialFormat (k : Nat) : String := viperTypes.getD k ""

/-- The settings held by `testConfig` at the end of trial number `k`. -/
def trialSettings (lib : Library) (b : Bytes) (k : Nat) : lib.Settings :=
  lib.AllSettings (trialStep lib b (trialInput lib b k) (trialFormat k))

/-- The bytes that trial number `k` of `GetConfigType` compares with `{}`. -/
def trialJSON (lib : Library) (b : Bytes) (k : Nat) : Bytes :=
  marshalDiscardErr lib (trialSettings lib b k)

/-- Whether the `ReadConfig` call of trial number `k` returns a non-nil error. -/
def trialFailed (lib : Library) (b : Bytes) (k : Nat) : Bool :=
  (lib.ReadConfig (lib.SetConfigType (trialInput lib b k) (trialFormat k)) b).2

/-- The first-match loop as the specification words it: for each candidate a
new instance is constructed, used for that one trial and dropped. -/
def freshLoop (lib : Library) (b : Bytes) : List String → String
  | [] => ""
  | j :: rest =>
    let parser := lib.New
    let parser := trialStep lib b parser j
    let json := marshalDiscardErr lib (lib.AllSettings parser)
    if json ≠ emptyViperConfig then j
    else freshLoop lib b rest

/-- The detector of the specification: `freshLoop` over the candidate list. -/
def GetConfigTypeFresh (lib : Library) (b : Bytes) : String :=
  freshLoop lib b viperTypes

/-- The library with the error reports of `ReadConfig` replaced by `e`. -/
def Library.withErrors (lib : Library) (e : lib.Viper → Bytes → Bool) : Library where
  Viper := lib.Viper
  Settings := lib.Settings
  New := lib.New
  SetConfigType := lib.SetConfigType
  ReadConfig := fun v b => ((lib.ReadConfig v b).1, e v b)
  AllSettings := lib.AllSettings
  Marshal := lib.Marshal

/-! ## The viper instance

The behaviour of the two packages that the claims about isolation of the
trials, the unset format and the empty buffer rest on, written down from the
packages: `ReadConfig` of `github.com/spf13/viper` throws away the config of the
instance and decodes into an empty one; with no config type set no decoder is
run; `json.Marshal` writes a map without keys as `{}`; a document of length
zero holds no key in any format.  What the decoders find in a document and how a
map with keys is written stay parameters. -/

/-- What a read and the marshaling do, seen from the instance: the settings
type, the settings of an empty config, the read of a buffer as a config type
into an empty config (the settings `AllSettings` then returns, and whether
`ReadConfig` returns an error), and `json.Marshal`. -/
structure Reader where
  /-- the settings map -/
  Settings : Type
  /-- the settings of an empty config -/
  noSettings : Settings
  /-- the read of a buffer, as the given type, into an empty config -/
  read : String → Bytes → Settings × Bool
  /-- the call `json.Marshal(m)` -/
  Marshal : Settings → Option Bytes

/-- The `*viper.Viper` instance as far as `main.go` uses it.  An instance holds
its config type and the settings of its config.  `viper.New()` gives an
instance with no type and an empty config; `SetConfigType` stores the type
unless it is the empty string; `ReadConfig` starts from an empty config on
every call and fills it from the buffer, read as the stored type;
`AllSettings` returns the settings of the config. -/
@[reducible]
def viperOf (r : Reader) : Library where
  Viper := String × r.Settings
  Settings := r.Settings
  New := ("", r.noSettings)
  SetConfigType := fun v t => if t = "" then v else (t, v.2)
  ReadConfig := fun v b => ((v.1, (r.read v.1 b).1), (r.read v.1 b).2)
  AllSettings := fun v => v.2
  Marshal := r.Marshal

/-- The decoders of the five formats and the writer of `json.Marshal`: the
entries (a key with its value) that decoding a document as a format leaves in
the config together with whether an error is returned, and the bytes written
for a map that has at least one entry. -/
structure Decoders where
  /-- a key of the settings map with its value -/
  Entry : Type
  /-- the entries decoded from a document read as a format, and whether
  decoding returns an error -/
  decode : String → Bytes → List Entry × Bool
  /-- the call `json.Marshal(m)` for a map `m` with a first entry and the others -/
  marshalMap : Entry → List Entry → Option Bytes

/-- The reader made of the decoders.  With no config type set no decoder is
run and the config stays empty; a map without entries is marshaled as `{}`. -/
@[reducible]
def Decoders.reader (d : Decoders) : Reader where
  Settings := List d.Entry
  noSettings := []
  read := fun t b => if t = "" then ([], (d.decode t b).2) else d.decode t b
  Marshal := fun m =>
    match m with
    | [] => some emptyViperConfig
    | e :: es => d.marshalMap e es

/-- The viper instance over the decoders `d`. -/
@[reducible]
def Decoders.viper (d : Decoders) : Library := viperOf d.reader

/-- The decoders `d` on documents: a document of length zero holds no key, so
no entry is decoded from it, whatever the format (`encoding/json` returns an
error for it, the other four return an empty document, none leaves a key). -/
@[reducible]
def Decoders.onDocuments (d : Decoders) : Decoders where
  Entry := d.Entry
  decode := fun t b => if b = [] then ([], (d.decode t b).2) else d.decode t b
  marshalMap := d.marshalMap

/-! ## Small libraries to evaluate the program on -/

/-- A decoder for the sample libraries: the settings found in `b` read as
format `t` (the empty list when there are none) and whether decoding failed.
`json` accepts a buffer that opens with a brace, `yaml` one that holds a colon,
`properties` one that holds an equals sign; `hcl` and `toml` accept only the
empty buffer; any other format name decodes nothing and reports no error. -/
def sampleDecode (t : String) (b : Bytes) : Bytes × Bool :=
  if t = "json" then
    if b = [123, 125] then ([], false)
    else if b.head? = some 123 then (b, false) else ([], true)
  else if t = "yaml" then
    if b = [] then ([], false)
    else if 58 ∈ b then (b, false) else ([], true)
  else if t = "properties" then
    if b = [] then ([], false)
    else if 61 ∈ b then (b, false) else ([], true)
  else if t = "hcl" ∨ t = "toml" then
    if b = [] then ([], false) else ([], true)
  else ([], false)

/-- Marshaling for the sample libraries: no settings give `{}`, settings that
hold the byte 255 cannot be marshaled, other settings are written between
braces. -/
def sampleMarshal (m : Bytes) : Option Bytes :=
  if m = [] then some [123, 125]
  else if 255 ∈ m then none
  else some ([123] ++ m ++ [125])

/-- A library whose `ReadConfig` replaces the settings of the instance by what
it decodes.  An instance is its configured type and its settings. -/
@[reducible]
def sampleLib : Library where
  Viper := String × Bytes
  Settings := Bytes
  New := ("", [])
  SetConfigType := fun v t => (t, v.2)
  ReadConfig := fun v b => ((v.1, (sampleDecode v.1 b).1), (sampleDecode v.1 b).2)
  AllSettings := fun v => v.2
  Marshal := sampleMarshal

/-- The buffer `a: 1` followed by a newline. -/
def yamlDoc : Bytes := [97, 58, 32, 49, 10]

/-- A buffer with a colon whose settings cannot be marshaled. -/
def badDoc : Bytes := [97, 58, 255]

/-- The lines of a buffer that hold at least one byte. -/
def docLines (b : Bytes) : List Bytes :=
  (b.foldr (fun (c : UInt8) (acc : List Bytes) =>
      if c = 10 then [] :: acc
      else
        match acc with
        | [] => [[c]]
        | l :: ls => (c :: l) :: ls) [[]]).filter (fun l => l ≠ [])

/-- The key and the value of a line `key: value`. -/
def lineEntry (l : Bytes) : Bytes × Bytes :=
  (l.takeWhile (fun c => c ≠ 58), (l.dropWhile (fun c => c ≠ 58)).drop 2)

/-- A mapping of scalars read as YAML, the way `yaml.Unmarshal` fills a
`map[string]interface{}`: with a line that has no colon the document is not a
mapping, nothing is decoded and an error is returned; a line whose key is a
flow sequence (it opens with a bracket) cannot
be stored under a string key, so that pair is skipped, the other pairs are
decoded, and a type error is returned. -/
def sampleYaml (b : Bytes) : List (Bytes × Bytes) × Bool :=
  if (docLines b).all (fun l => 58 ∈ l) then
    (((docLines b).filter (fun l => l.head? ≠ some 91)).map lineEntry,
      (docLines b).any (fun l => l.head? = some 91))
  else ([], true)

/-- One entry written as JSON: the key between quotes, a colon, and the value,
as it stands when it is a number of decimal digits and between quotes when it
is not. -/
def entryJSON (e : Bytes × Bytes) : Bytes :=
  [34] ++ e.1 ++ [34, 58] ++
    (if e.2 ≠ [] ∧ e.2.all (fun c => decide (48 ≤ c ∧ c ≤ 57)) = true then e.2
     else [34] ++ e.2 ++ [34])

/-- Sample decoders, made to return what the real ones return on the documents
they are evaluated on below (`a: 1`, a mapping with a sequence as a key, a
lone newline, the empty buffer): `yaml` is `sampleYaml`; `json` decodes the
empty object and takes every other document for a syntax error; the other
formats decode no entry and return an error when the document has a line. -/
@[reducible]
def sampleDecoders : Decoders where
  Entry := Bytes × Bytes
  decode := fun t b =>
    if t = "yaml" then sampleYaml b
    else if t = "json" then ([], decide (b ≠ [123, 125]))
    else ([], decide (docLines b ≠ []))
  marshalMap := fun e es =>
    some ([123] ++ entryJSON e ++ (es.map (fun x => [44] ++ entryJSON x)).flatten ++ [125])

/-- The buffer of the two lines `a: 1` and `[x]: 2`: a YAML mapping whose
second key is a sequence. -/
def seqKeyDoc : Bytes := [97, 58, 32, 49, 10, 91, 120, 93, 58, 32, 50, 10]

/-- The bytes `{"a":1}`. -/
def jsonA1 : Bytes := [123, 34, 97, 34, 58, 49, 125]


/-! ## The loop of the detector -/

theorem jsonFrom_zero (lib : Library) (b : Bytes) (v : lib.Viper) (j : String)
    (rest : List String) :
    jsonFrom lib b v (j :: rest) 0
      = marshalDiscardErr lib (lib.AllSettings (trialStep lib b v j)) := rfl

theorem jsonFrom_succ (lib : Library) (b : Bytes) (v : lib.Viper) (j : String)
    (rest : List String) (i : Nat) :
    jsonFrom lib b v (j :: rest) (i + 1) = jsonFrom lib b (trialStep lib b v j) rest i := rfl

/-- While the passes compare equal to `{}` the loop goes on: after `k` such
passes it stands at the `k`-th format with the instance those passes left. -/
theorem detectLoop_skip (lib : Library) (b : Bytes) :
    ∀ (fs : List String) (v : lib.Viper) (k : Nat),
      (∀ i, i < k → i < fs.length → jsonFrom lib b v fs i = emptyViperConfig) →
      detectLoop lib b v fs
        = detectLoop lib b (afterTrials lib b v (fs.take k)) (fs.drop k) := by
  intro fs
  induction fs with
  | nil => intro v k _; simp [afterTrials]
  | cons j rest ih =>
    intro v k h
    cases k with
    | zero => simp [afterTrials]
    | succ k =>
      have h0 : marshalDiscardErr lib (lib.AllSettings (trialStep lib b v j))
          = emptyViperConfig := by
        have := h 0 (Nat.succ_pos k) (by simp)
        rwa [jsonFrom_zero] at this
      have hrest : ∀ i, i < k → i < rest.length →
          jsonFrom lib b (trialStep lib b v j) rest i = emptyViperConfig := by
        intro i hi hlen
        have := h (i + 1) (Nat.succ_lt_succ hi) (by simpa using hlen)
        rwa [jsonFrom_succ] at this
      have hstep : detectLoop lib b v (j :: rest)
          = detectLoop lib b (trialStep lib b v j) rest := by
        rw [detectLoop]
        simp [h0]
      rw [hstep, ih (trialStep lib b v j) k hrest]
      simp [afterTrials]

/-- The loop returns the first format whose pass does not compare equal to
`{}`. -/
theorem detectLoop_hit (lib : Library) (b : Bytes) (fs : List String) (v : lib.Viper)
    (k : Nat) (hk : k < fs.length)
    (hprev : ∀ i, i < k → jsonFrom lib b v fs i = emptyViperConfig)
    (hhit : jsonFrom lib b v fs k ≠ emptyViperConfig) :
    detectLoop lib b v fs = fs.getD k "" := by
  rw [detectLoop_skip lib b fs v k (fun i hi _ => hprev i hi)]
  have hdrop : fs.drop k = fs.getD k "" :: fs.drop (k + 1) := by
    rw [List.getD_eq_getElem fs "" hk]
    exact List.drop_eq_getElem_cons hk
  rw [hdrop, detectLoop]
  have hj : marshalDiscardErr lib (lib.AllSettings
      (trialStep lib b (afterTrials lib b v (fs.take k)) (fs.getD k ""))) ≠ emptyViperConfig :=
    hhit
  exact if_pos hj

/-- The loop falls through and returns `""` when every pass compares equal to
`{}`. -/
theorem detectLoop_none (lib : Library) (b : Bytes) (fs : List String) (v : lib.Viper)
    (hall : ∀ i, i < fs.length → jsonFrom lib b v fs i = emptyViperConfig) :
    detectLoop lib b v fs = "" := by
  rw [detectLoop_skip lib b fs v fs.length (fun i hi _ => hall i hi)]
  simp [detectLoop]

/-- Either every pass compares equal to `{}`, or there is a first one that
does not. -/
theorem first_hit_or_none (lib : Library) (b : Bytes) (fs : List String) (v : lib.Viper) :
    (∀ i, i < fs.length → jsonFrom lib b v fs i = emptyViperConfig) ∨
    ∃ k, k < fs.length ∧ jsonFrom lib b v fs k ≠ emptyViperConfig ∧
      ∀ i, i < k → jsonFrom lib b v fs i = emptyViperConfig := by
  by_cases h : ∃ k, k < fs.length ∧ jsonFrom lib b v fs k ≠ emptyViperConfig
  · right
    refine ⟨Nat.find h, (Nat.find_spec h).1, (Nat.find_spec h).2, ?_⟩
    intro i hi
    have hmin := Nat.find_min h hi
    have hlen : i < fs.length := lt_trans hi (Nat.find_spec h).1
    by_contra hne
    exact hmin ⟨hlen, hne⟩
  · left
    intro i hi
    by_contra hne
    exact h ⟨i, hi, hne⟩

theorem trialFormat_ne_empty : ∀ k, k < viperTypes.length → trialFormat k ≠ "" := by
  decide

theorem trialFormat_injective :
    ∀ k, k < viperTypes.length → ∀ i, i < viperTypes.length →
      trialFormat k = trialFormat i → k = i := by
  decide

theorem trialFormat_mem (k : Nat) (hk : k < viperTypes.length) :
    trialFormat k ∈ viperTypes := by
  unfold trialFormat
  rw [List.getD_eq_getElem viperTypes "" hk]
  exact List.getElem_mem hk

/-- What `GetConfigType` returns, by cases on the trials. -/
theorem GetConfigType_cases (lib : Library) (b : Bytes) :
    (GetConfigType lib b = "" ∧
      ∀ i, i < viperTypes.length → trialJSON lib b i = emptyViperConfig) ∨
    ∃ k, k < viperTypes.length ∧ GetConfigType lib b = trialFormat k ∧
      trialJSON lib b k ≠ emptyViperConfig ∧
      ∀ i, i < k → trialJSON lib b i = emptyViperConfig := by
  rcases first_hit_or_none lib b viperTypes lib.New with hall | ⟨k, hk, hhit, hprev⟩
  · exact Or.inl ⟨detectLoop_none lib b viperTypes lib.New hall, hall⟩
  · exact Or.inr ⟨k, hk, detectLoop_hit lib b viperTypes lib.New k hk hprev hhit, hhit, hprev⟩

/-- When the settings a pass leaves do not depend on the instance it started
from, the loop on a used instance and the loop that builds a new instance per
candidate agree. -/
theorem detectLoop_eq_freshLoop (lib : Library) (b : Bytes) :
    ∀ (fs : List String),
      (∀ t, t ∈ fs → ∀ v : lib.Viper,
        lib.AllSettings (trialStep lib b v t)
          = lib.AllSettings (trialStep lib b lib.New t)) →
      ∀ v : lib.Viper, detectLoop lib b v fs = freshLoop lib b fs := by
  intro fs
  induction fs with
  | nil => intro _ v; rfl
  | cons j rest ih =>
    intro hrep v
    have hset : lib.AllSettings (trialStep lib b v j)
        = lib.AllSettings (trialStep lib b lib.New j) :=
      hrep j (List.mem_cons_self j rest) v
    have hrest := ih (fun t ht => hrep t (List.mem_cons_of_mem j ht))
    rw [detectLoop, freshLoop]
    simp only [hset, hrest]

/-- The error reports of `ReadConfig` play no part in the loop. -/
theorem detectLoop_withErrors (lib : Library) (e : lib.Viper → Bytes → Bool) (b : Bytes) :
    ∀ (fs : List String) (v : lib.Viper),
      detectLoop (lib.withErrors e) b v fs = detectLoop lib b v fs := by
  intro fs
  induction fs with
  | nil => intro v; rfl
  | cons j rest ih =>
    intro v
    rw [detectLoop, detectLoop]
    have hstep : trialStep (lib.withErrors e) b v j = trialStep lib b v j := rfl
    rw [hstep, ih]
    rfl

/-- With the input read and the loaded settings marshaled to `js`, `main`
returns having written `js` and a newline. -/
theorem main_of_marshal (lib : Library) (b js : Bytes)
    (hser : lib.Marshal (lib.AllSettings (GetViperConfigFromBytes lib b)) = some js) :
    main lib (b, false) = Outcome.returned (js ++ [10]) := by
  simp only [main, hser]
  rfl

/-! ## Reads of the viper instance -/

theorem viperTypes_ne_empty : ∀ F, F ∈ viperTypes → F ≠ "" := by
  decide

/-- A pass of the loop for a format leaves in the instance the settings read
from the buffer as that format, whatever the instance held before. -/
theorem viperOf_trial_settings (r : Reader) (b : Bytes) (v : (viperOf r).Viper)
    (t : String) (ht : t ≠ "") :
    (viperOf r).AllSettings (trialStep (viperOf r) b v t) = (r.read t b).1 := by
  simp only [trialStep, if_neg ht]

/-- With no format detected the loader reads with no config type set, finds no
entry, and `main` writes `{}` and a newline. -/
theorem viper_unset_output (d : Decoders) (b : Bytes)
    (hdet : GetConfigType d.viper b = "") :
    d.viper.AllSettings (GetViperConfigFromBytes d.viper b) = [] ∧
    main d.viper (b, false) = Outcome.returned (emptyViperConfig ++ [10]) := by
  have hset : d.viper.AllSettings (GetViperConfigFromBytes d.viper b) = [] := by
    simp only [GetViperConfigFromBytes, hdet]
    rfl
  have hser : d.viper.Marshal (d.viper.AllSettings (GetViperConfigFromBytes d.viper b))
      = some emptyViperConfig :=
    (congrArg d.viper.Marshal hset).trans rfl
  exact ⟨hset, main_of_marshal d.viper b emptyViperConfig hser⟩

/-! ## First match in priority order -/

/-- C1. When `GetConfigType` returns a format `F` (not the sentinel `""`), `F`
is one of the five candidates, the trial of `F` serializes to something other
than `{}`, every candidate before `F` serializes to exactly `{}`, and so `F` is
the earliest of all candidates whose trial is not `{}`.  A trial is taken as
the detector runs it: on its one instance, after the trials before it. -/
theorem first_match_in_priority_order (lib : Library) (b : Bytes) (F : String)
    (hF : GetConfigType lib b = F) (hne : F ≠ "") :
    F ∈ viperTypes ∧
    ∃ k, k < viperTypes.length ∧ trialFormat k = F ∧
      trialJSON lib b k ≠ emptyViperConfig ∧
      (∀ i, i < k → trialJSON lib b i = emptyViperConfig) ∧
      (∀ i, i < viperTypes.length → trialJSON lib b i ≠ emptyViperConfig → k ≤ i) := by
  rcases GetConfigType_cases lib b with ⟨hnone, _⟩ | ⟨k, hk, hres, hhit, hprev⟩
  · exact absurd (hF.symm.trans hnone) hne
  · have hfmt : trialFormat k = F := hres.symm.trans hF
    refine ⟨hfmt ▸ trialFormat_mem k hk, k, hk, hfmt, hhit, hprev, ?_⟩
    intro i _ hi
    by_contra hlt
    exact hi (hprev i (Nat.lt_of_not_le hlt))

theorem first_match_in_priority_order_witness :
    "yaml" ∈ viperTypes ∧
    ∃ k, k < viperTypes.length ∧ trialFormat k = "yaml" ∧
      trialJSON sampleLib yamlDoc k ≠ emptyViperConfig ∧
      (∀ i, i < k → trialJSON sampleLib yamlDoc i = emptyViperConfig) ∧
      (∀ i, i < viperTypes.length →
        trialJSON sampleLib yamlDoc i ≠ emptyViperConfig → k ≤ i) :=
  first_match_in_priority_order sampleLib yamlDoc "yaml" (by decide) (by decide)

/-! ## The not-found sentinel -/

/-- C2. `GetConfigType` returns the empty string exactly when each of the five
candidates, tried on the buffer, gives settings whose serialization is
byte-equal to `{}`. -/
theorem not_found_iff_all_trials_empty (lib : Library) (b : Bytes) :
    GetConfigType lib b = "" ↔
      ∀ k, k < viperTypes.length → trialJSON lib b k = emptyViperConfig := by
  constructor
  · intro hres
    rcases GetConfigType_cases lib b with ⟨_, hall⟩ | ⟨k, hk, hfmt, _, _⟩
    · exact hall
    · exact absurd (hfmt.symm.trans hres) (trialFormat_ne_empty k hk)
  · intro hall
    exact detectLoop_none lib b viperTypes lib.New hall

/-! ## A serialization failure inside the detector -/

/-- C9. When every candidate before the `k`-th serializes to `{}` and
marshaling the settings of the `k`-th trial fails, `GetConfigType` returns
the `k`-th format: the error is dropped, the byte slice compared is the absent
one, and that slice is not byte-equal to `{}`. -/
theorem marshal_failure_selects_candidate (lib : Library) (b : Bytes) (k : Nat)
    (hk : k < viperTypes.length)
    (hprev : ∀ i, i < k → trialJSON lib b i = emptyViperConfig)
    (hfail : lib.Marshal (trialSettings lib b k) = none) :
    GetConfigType lib b = trialFormat k ∧ trialJSON lib b k = [] ∧
      trialJSON lib b k ≠ emptyViperConfig := by
  have hnil : trialJSON lib b k = [] := by
    unfold trialJSON marshalDiscardErr
    rw [hfail]
  have hhit : trialJSON lib b k ≠ emptyViperConfig := by
    rw [hnil]
    decide
  exact ⟨detectLoop_hit lib b viperTypes lib.New k hk hprev hhit, hnil, hhit⟩

theorem marshal_failure_selects_candidate_witness :
    GetConfigType sampleLib badDoc = trialFormat 1 ∧ trialJSON sampleLib badDoc 1 = [] ∧
      trialJSON sampleLib badDoc 1 ≠ emptyViperConfig :=
  marshal_failure_selects_candidate sampleLib badDoc 1 (by decide) (by decide) (by decide)

/-! ## The pipeline -/

/-- C7. When the final settings can be serialized, the text written is the
serialization of the settings read from the buffer by a newly constructed
instance set to the format `GetConfigType` returned, followed by one newline. -/
theorem pipeline_output (lib : Library) (b js : Bytes)
    (hser : lib.Marshal (lib.AllSettings
      (lib.ReadConfig (lib.SetConfigType lib.New (GetConfigType lib b)) b).1) = some js) :
    GetViperConfigFromBytes lib b
        = (lib.ReadConfig (lib.SetConfigType lib.New (GetConfigType lib b)) b).1 ∧
      main lib (b, false) = Outcome.returned (js ++ [10]) := by
  refine ⟨rfl, ?_⟩
  simp only [main, GetViperConfigFromBytes, hser]
  rfl

theorem pipeline_output_witness :
    GetViperConfigFromBytes sampleLib yamlDoc
        = (sampleLib.ReadConfig
            (sampleLib.SetConfigType sampleLib.New (GetConfigType sampleLib yamlDoc)) yamlDoc).1 ∧
      main sampleLib (yamlDoc, false)
        = Outcome.returned (([123] ++ yamlDoc ++ [125]) ++ [10]) :=
  pipeline_output sampleLib yamlDoc ([123] ++ yamlDoc ++ [125]) (by decide)

/-- C8. Once the input has been read, the run ends in a panic, with nothing
written, exactly when the settings loaded by `GetViperConfigFromBytes` cannot
be serialized; in every other case `main` returns, having written the output. -/
theorem panic_iff_marshal_failure (lib : Library) (b : Bytes) :
    ((∃ msg, main lib (b, false) = Outcome.panicked msg) ↔
      lib.Marshal (lib.AllSettings (GetViperConfigFromBytes lib b)) = none) ∧
    ((∃ out, main lib (b, false) = Outcome.returned out) ↔
      lib.Marshal (lib.AllSettings (GetViperConfigFromBytes lib b)) ≠ none) := by
  cases h : lib.Marshal (lib.AllSettings (GetViperConfigFromBytes lib b)) with
  | none =>
    have hm : main lib (b, false) = Outcome.panicked "json: error marshaling JSON" := by
      simp only [main, h]
      rfl
    simp [hm]
  | some js =>
    have hm : main lib (b, false) = Outcome.returned (js ++ [10]) := by
      simp only [main, h]
      rfl
    simp [hm]

/-! ## Isolation of the trials -/

/-- C3. The outcome of the detector's trial of a candidate `F` on the buffer
depends only on `F` and the buffer, not on any earlier trial: whatever the
instance held when the trial began, the settings the trial leaves are those of
the buffer read as `F`, the same as on a newly constructed instance.  So
`GetConfigType`, which runs its trials on one instance, returns what the
first-match loop with a new instance per candidate returns. -/
theorem trials_isolated_equal_fresh_loop (r : Reader) (b : Bytes) :
    (∀ F, F ∈ viperTypes → ∀ v : (viperOf r).Viper,
      (viperOf r).AllSettings (trialStep (viperOf r) b v F) = (r.read F b).1) ∧
    (∀ k, k < viperTypes.length →
      trialSettings (viperOf r) b k
        = (viperOf r).AllSettings
            (trialStep (viperOf r) b (viperOf r).New (trialFormat k))) ∧
    GetConfigType (viperOf r) b = GetConfigTypeFresh (viperOf r) b := by
  have hone : ∀ F, F ∈ viperTypes → ∀ v : (viperOf r).Viper,
      (viperOf r).AllSettings (trialStep (viperOf r) b v F) = (r.read F b).1 :=
    fun F hF v => viperOf_trial_settings r b v F (viperTypes_ne_empty F hF)
  refine ⟨hone, ?_, ?_⟩
  · intro k hk
    have hmem := trialFormat_mem k hk
    exact (hone _ hmem (trialInput (viperOf r) b k)).trans
      (hone _ hmem (viperOf r).New).symm
  · exact detectLoop_eq_freshLoop (viperOf r) b viperTypes
      (fun t ht v => (hone t ht v).trans (hone t ht (viperOf r).New).symm) (viperOf r).New

/-! ## Parse failures -/

/-- C4, as stated, fails.  On the two lines `a: 1` and `[x]: 2` the `json`
trial finds nothing; the `yaml` trial reports a failure (the sequence cannot be
a string key) and still leaves the key `a` in the instance, whose settings
serialize to `{"a":1}`; `GetConfigType` returns `yaml`, the format whose parse
failed. -/
theorem parse_failure_counts_as_empty_counterexample :
    trialJSON sampleDecoders.viper seqKeyDoc 0 = emptyViperConfig ∧
    trialFailed sampleDecoders.viper seqKeyDoc 1 = true ∧
    trialJSON sampleDecoders.viper seqKeyDoc 1 = jsonA1 ∧
    trialJSON sampleDecoders.viper seqKeyDoc 1 ≠ emptyViperConfig ∧
    GetConfigType sampleDecoders.viper seqKeyDoc = trialFormat 1 ∧
    trialFormat 1 = "yaml" := by
  decide

/-- C4, amended.  The error of `ReadConfig` is dropped: what `GetConfigType`
returns is the same whatever the reads report.  A candidate reached by the
loop whose read reports a failure is passed over exactly when the settings
then held by the instance serialize to `{}`, and the loop then goes on with the
next candidate. -/
theorem parse_failure_is_discarded (lib : Library) (b : Bytes) (k : Nat)
    (e : lib.Viper → Bytes → Bool)
    (hk : k < viperTypes.length)
    (hprev : ∀ i, i < k → trialJSON lib b i = emptyViperConfig)
    (hfail : trialFailed lib b k = true) :
    GetConfigType (lib.withErrors e) b = GetConfigType lib b ∧
    (GetConfigType lib b ≠ trialFormat k ↔ trialJSON lib b k = emptyViperConfig) ∧
    (trialJSON lib b k = emptyViperConfig →
      GetConfigType lib b
        = detectLoop lib b (trialStep lib b (trialInput lib b k) (trialFormat k))
            (viperTypes.drop (k + 1))) := by
  refine ⟨detectLoop_withErrors lib e b viperTypes lib.New, ?_, ?_⟩
  · constructor
    · intro hne
      by_contra hhit
      exact hne (detectLoop_hit lib b viperTypes lib.New k hk hprev hhit)
    · intro hempty hres
      rcases GetConfigType_cases lib b with ⟨hnone, _⟩ | ⟨k2, hk2, hres2, hhit2, hprev2⟩
      · exact trialFormat_ne_empty k hk (hres.symm.trans hnone)
      · have hkk : k2 = k := trialFormat_injective k2 hk2 k hk (hres2.symm.trans hres)
        exact hhit2 (hkk ▸ hempty)
  · intro hempty
    have hskip := detectLoop_skip lib b viperTypes lib.New (k + 1) (fun i hi _ => by
      rcases Nat.lt_succ_iff_lt_or_eq.mp hi with hlt | heq
      · exact hprev i hlt
      · exact heq ▸ hempty)
    have hstate : afterTrials lib b lib.New (viperTypes.take (k + 1))
        = trialStep lib b (trialInput lib b k) (trialFormat k) := by
      have h5 : k = 0 ∨ k = 1 ∨ k = 2 ∨ k = 3 ∨ k = 4 := by
        have : k < 5 := hk
        omega
      rcases h5 with rfl | rfl | rfl | rfl | rfl <;> rfl
    rw [← hstate]
    exact hskip

theorem parse_failure_is_discarded_witness :
    GetConfigType (sampleLib.withErrors (fun _ _ => false)) yamlDoc
        = GetConfigType sampleLib yamlDoc ∧
    (GetConfigType sampleLib yamlDoc ≠ trialFormat 0 ↔
      trialJSON sampleLib yamlDoc 0 = emptyViperConfig) ∧
    (trialJSON sampleLib yamlDoc 0 = emptyViperConfig →
      GetConfigType sampleLib yamlDoc
        = detectLoop sampleLib yamlDoc
            (trialStep sampleLib yamlDoc (trialInput sampleLib yamlDoc 0) (trialFormat 0))
            (viperTypes.drop (0 + 1))) :=
  parse_failure_is_discarded sampleLib yamlDoc 0 (fun _ _ => false)
    (by decide) (by decide) (by decide)

/-! ## Empty input and undetected input -/

/-- C5. For the zero-length buffer every candidate format produces an empty
settings map, `GetConfigType` returns the empty string, and the pipeline
writes exactly `{}`, as one line. -/
theorem empty_input_not_detected (d : Decoders) :
    (∀ k, k < viperTypes.length → trialSettings d.onDocuments.viper [] k = []) ∧
    (∀ k, k < viperTypes.length → trialJSON d.onDocuments.viper [] k = emptyViperConfig) ∧
    GetConfigType d.onDocuments.viper [] = "" ∧
    main d.onDocuments.viper ([], false) = Outcome.returned (emptyViperConfig ++ [10]) := by
  have hset : ∀ k, k < viperTypes.length → trialSettings d.onDocuments.viper [] k = [] := by
    intro k hk
    have hne := trialFormat_ne_empty k hk
    have h := viperOf_trial_settings d.onDocuments.reader []
      (trialInput d.onDocuments.viper [] k) (trialFormat k) hne
    refine h.trans ?_
    simp only [if_neg hne]
    rfl
  have hjson : ∀ k, k < viperTypes.length →
      trialJSON d.onDocuments.viper [] k = emptyViperConfig := by
    intro k hk
    unfold trialJSON
    rw [hset k hk]
    rfl
  have hdet : GetConfigType d.onDocuments.viper [] = "" :=
    detectLoop_none d.onDocuments.viper [] viperTypes d.onDocuments.viper.New hjson
  exact ⟨hset, hjson, hdet, (viper_unset_output d.onDocuments [] hdet).2⟩

/-- C6. On a buffer for which `GetConfigType` returns the empty string,
`GetViperConfigFromBytes` reads the buffer with a new instance whose format is
left unset; the read yields an empty settings map, whatever it reports is
dropped, and the pipeline returns normally, having written exactly `{}`, as one
line. -/
theorem detection_failure_degrades_gracefully (d : Decoders) (b : Bytes)
    (hdet : GetConfigType d.viper b = "") :
    GetViperConfigFromBytes d.viper b
        = (d.viper.ReadConfig (d.viper.SetConfigType d.viper.New "") b).1 ∧
    d.viper.AllSettings (GetViperConfigFromBytes d.viper b) = [] ∧
    main d.viper (b, false) = Outcome.returned (emptyViperConfig ++ [10]) := by
  have hload : GetViperConfigFromBytes d.viper b
      = (d.viper.ReadConfig (d.viper.SetConfigType d.viper.New "") b).1 := by
    simp only [GetViperConfigFromBytes, hdet]
  exact ⟨hload, (viper_unset_output d b hdet).1, (viper_unset_output d b hdet).2⟩

theorem detection_failure_degrades_gracefully_witness :
    GetViperConfigFromBytes sampleDecoders.viper [10]
        = (sampleDecoders.viper.ReadConfig
            (sampleDecoders.viper.SetConfigType sampleDecoders.viper.New "") [10]).1 ∧
    sampleDecoders.viper.AllSettings (GetViperConfigFromBytes sampleDecoders.viper [10]) = [] ∧
    main sampleDecoders.viper ([10], false) = Outcome.returned (emptyViperConfig ++ [10]) :=
  detection_failure_degrades_gracefully sampleDecoders [10] (by decide)

/-! ## Successful detection -/

/-- C10. When `GetConfigType` returns a format `F` other than `""` and the
final settings serialize without error, the settings loaded by
`GetViperConfigFromBytes` serialize to the bytes of the detector's winning
trial of `F`, these are not `{}`, and they are what the pipeline writes,
followed by the newline: the output is not `{}`. -/
theorem detection_implies_nonempty_output (r : Reader) (b js : Bytes) (F : String)
    (hF : GetConfigType (viperOf r) b = F) (hne : F ≠ "")
    (hser : (viperOf r).Marshal
      ((viperOf r).AllSettings (GetViperConfigFromBytes (viperOf r) b)) = some js) :
    ∃ k, k < viperTypes.length ∧ trialFormat k = F ∧
      (∀ i, i < k → trialJSON (viperOf r) b i = emptyViperConfig) ∧
      trialSettings (viperOf r) b k
        = (viperOf r).AllSettings (GetViperConfigFromBytes (viperOf r) b) ∧
      trialJSON (viperOf r) b k = js ∧ js ≠ emptyViperConfig ∧
      main (viperOf r) (b, false) = Outcome.returned (js ++ [10]) ∧
      main (viperOf r) (b, false) ≠ Outcome.returned (emptyViperConfig ++ [10]) := by
  rcases GetConfigType_cases (viperOf r) b with ⟨hnone, _⟩ | ⟨k, hk, hres, hhit, hprev⟩
  · exact absurd (hF.symm.trans hnone) hne
  · have hfmt : trialFormat k = F := hres.symm.trans hF
    have hload : GetViperConfigFromBytes (viperOf r) b
        = trialStep (viperOf r) b (viperOf r).New F := by
      simp only [GetViperConfigFromBytes, trialStep, hF]
    have hsame : trialSettings (viperOf r) b k
        = (viperOf r).AllSettings (GetViperConfigFromBytes (viperOf r) b) := by
      rw [hload]
      unfold trialSettings
      rw [hfmt]
      exact (viperOf_trial_settings r b _ F hne).trans
        (viperOf_trial_settings r b _ F hne).symm
    have hjs : trialJSON (viperOf r) b k = js := by
      unfold trialJSON marshalDiscardErr
      rw [hsame, hser]
    have hjne : js ≠ emptyViperConfig := hjs ▸ hhit
    have hmain : main (viperOf r) (b, false) = Outcome.returned (js ++ [10]) :=
      main_of_marshal (viperOf r) b js hser
    refine ⟨k, hk, hfmt, hprev, hsame, hjs, hjne, hmain, ?_⟩
    rw [hmain]
    intro heq
    injection heq with heq
    exact hjne (List.append_cancel_right heq)

theorem detection_implies_nonempty_output_witness :
    ∃ k, k < viperTypes.length ∧ trialFormat k = "yaml" ∧
      (∀ i, i < k → trialJSON sampleDecoders.viper yamlDoc i = emptyViperConfig) ∧
      trialSettings sampleDecoders.viper yamlDoc k
        = sampleDecoders.viper.AllSettings
            (GetViperConfigFromBytes sampleDecoders.viper yamlDoc) ∧
      trialJSON sampleDecoders.viper yamlDoc k = jsonA1 ∧ jsonA1 ≠ emptyViperConfig ∧
      main sampleDecoders.viper (yamlDoc, false) = Outcome.returned (jsonA1 ++ [10]) ∧
      main sampleDecoders.viper (yamlDoc, false)
        ≠ Outcome.returned (emptyViperConfig ++ [10]) :=
  detection_implies_nonempty_output sampleDecoders.reader yamlDoc jsonA1 "yaml"
    (by decide) (by decide) (by decide)

end Viper2Json
